import Mathlib

/-!
Verification development for the forecast-accuracy pipeline
(`src/api/main.py` of the Forecast-Accuracy-Publication repository).

The Python pipeline is shallowly embedded: pandas columns become record
fields, float NaN becomes `Option ℚ` (`none` = not-a-number), numpy
reductions become list folds over `ℚ`, and HTTP 404 responses become
`Except.error`.  RMSE is represented by its square (`mse`): the square
root is strictly monotone on nonnegative values and maps NaN to NaN, so
both the NaN-ness and the relative order of RMSE values — the only two
facts the specification uses — are preserved.

Dates: `pandas.Timestamp` values are embedded as calendar triples
(`PDate`).  A missing date (`NaT`) is `none`.  Timestamp years always
lie in 1677..2262 (the nanosecond-resolution range), which is used as a
hypothesis where the fiscal-year label is characterised.
-/

attribute [local semireducible] Rat.mul Rat.add Rat.sub Rat.inv

/-- Calendar date as carried by a parsed `Period` value. -/
structure PDate where
  year : Nat
  month : Nat
  day : Nat
  deriving DecidableEq

/-- Python `str(y)[-2:]` — the last two characters of the decimal rendering. -/
def lastTwo (y : Nat) : String :=
  (Nat.repr y).takeRight 2

/-- Two-digit zero-padded decimal rendering of `n` (intended for `n < 100`). -/
def pad2 (n : Nat) : String :=
  (if n < 10 then "0" else "") ++ Nat.repr n

/-- Embeds `fy_from_date` (main.py:104): financial year is July → June;
a missing date maps to the empty label. -/
def fy_from_date : Option PDate → String
  | none => ""
  | some d =>
    if 7 ≤ d.month then
      "FY" ++ lastTwo d.year ++ "/" ++ lastTwo (d.year + 1)
    else
      "FY" ++ lastTwo (d.year - 1) ++ "/" ++ lastTwo d.year

/-- Python `str.strip()`: drop leading and trailing whitespace.  Defined
by structural recursion over the character list so that it evaluates
inside the kernel (`String.trim` does not). -/
def pyStrip (s : String) : String :=
  ((s.data.dropWhile Char.isWhitespace).reverse.dropWhile Char.isWhitespace).reverse.asString

/-- Python `str.upper()` on the character list. -/
def pyUpper (s : String) : String :=
  (s.data.map Char.toUpper).asString

/-- Python `str.lower()` on the character list. -/
def pyLower (s : String) : String :=
  (s.data.map Char.toLower).asString

/-- Embeds `is_ai_method` (main.py:114): substring tests on the trimmed,
lowercased method name (Python `"x" in m` is substring containment). -/
def is_ai_method (method : String) : Bool :=
  let m := pyLower (pyStrip method)
  decide ("ai".toList <:+: m.toList) || decide ("lmis".toList <:+: m.toList) ||
    decide ("lm".toList <:+: m.toList)

/-- Embeds `normalize_forecast_type` (main.py:127): any raw label containing
"review" (case-insensitively) maps to "Review", everything else to "Main". -/
def normalize_forecast_type (ft : String) : String :=
  if "review".toList <:+: (pyLower (pyStrip ft)).toList then "Review" else "Main"

/-- One usable actual/forecast pair, as consumed by `compute_metrics`.
Rows reaching `compute_metrics` come from `metrics_df`, where both
numbers are present (the dropna filters of main.py:243-246). -/
structure Obs where
  actual : ℚ
  forecast : ℚ
  deriving DecidableEq

/-- Result record of `compute_metrics`; `none` stands for float NaN.
`mse` is the square of the reported RMSE (see the file header). -/
structure Metrics where
  bias : Option ℚ
  mse : Option ℚ
  mape : Option ℚ
  wape : Option ℚ
  n : Nat
  deriving DecidableEq

/-- `np.mean` over rationals: NaN (`none`) on an empty array. -/
def qmean (l : List ℚ) : Option ℚ :=
  if l = [] then none else some (l.sum / l.length)

/-- Embeds `compute_metrics` (main.py:173-189).
`np.where(actual == 0, np.nan, actual)` followed by `np.nanmean` is the
`filterMap` with an `if`: entries whose actual is zero become NaN and are
skipped by `nanmean`.  The `np.nansum` calls reduce to plain sums because
no NaN reaches them (all inputs are present rationals). -/
def compute_metrics (sub : List Obs) : Metrics :=
  let errors := sub.map (fun o => o.forecast - o.actual)
  let bias := qmean errors
  let mse := qmean (errors.map (fun e => e * e))
  let mape := (qmean (sub.filterMap (fun o =>
      if o.actual = 0 then none else some (|o.forecast - o.actual| / o.actual)))).map
      (fun x => x * 100)
  let abs_err_sum := (errors.map (fun e => |e|)).sum
  let actual_sum := (sub.map (fun o => |o.actual|)).sum
  let wape := if actual_sum ≠ 0 then some (abs_err_sum / actual_sum * 100) else none
  { bias := bias, mse := mse, mape := mape, wape := wape, n := sub.length }

/-- One row of the normalized `long` table (main.py:214-239) after the
cleaning columns have been attached.  `date` is `parse_period_to_date`
applied to the raw `Period` cell (the period parser is upstream of every
claim and is kept abstract); the `fy`, `is_adopted` and `is_ai` columns
are derived and appear below as functions of the row. -/
structure LongRow where
  product_clean : String
  method_clean : String
  adopted_method : String
  forecast_type : String
  date : Option PDate
  actual_num : Option ℚ
  forecast_num : Option ℚ
  deriving DecidableEq

/-- The derived `fy` column (main.py:231). -/
def fyCol (r : LongRow) : String :=
  fy_from_date r.date

/-- The derived `is_adopted` column (main.py:238). -/
def rowIsAdopted (r : LongRow) : Bool :=
  r.method_clean == r.adopted_method

/-- The derived `is_ai` column (main.py:239). -/
def rowIsAI (r : LongRow) : Bool :=
  is_ai_method r.method_clean

/-- Extracts the actual/forecast pair of a metrics row.  Every row handed
to `compute_metrics` satisfies `actual_num.isSome` and `forecast_num.isSome`
(filters of `long_for_lists` and `metrics_df`), so the defaults never fire. -/
def toObs (r : LongRow) : Obs :=
  { actual := r.actual_num.getD 0, forecast := r.forecast_num.getD 0 }

/-- Embeds `long_for_lists` (main.py:243): rows with a numeric forecast.
The product/method components of the dropna are vacuous: `astype(str)`
never yields missing values for those columns. -/
def long_for_lists (l : List LongRow) : List LongRow :=
  l.filter (fun r => r.forecast_num.isSome)

/-- Embeds `metrics_df` (main.py:246-247): additionally require a numeric
actual and a non-blank fiscal year. -/
def metrics_df (l : List LongRow) : List LongRow :=
  (long_for_lists l).filter (fun r => r.actual_num.isSome && !(pyStrip (fyCol r) == ""))

/-- Distinct values in first-occurrence order (pandas `Series.unique`):
each head is kept and its later copies are filtered out of the
recursively deduplicated tail. -/
def dedupFirst : List String → List String
  | [] => []
  | a :: l => a :: (dedupFirst l).filter (fun b => !(b == a))

/-- pandas `groupby("method_clean")`: groups keyed by the distinct method
names in ascending order, each holding its rows in original order. -/
def groupByMethod (l : List LongRow) : List (String × List LongRow) :=
  (List.insertionSort (fun a b : String => a.data ≤ b.data) (dedupFirst (l.map (fun r => r.method_clean)))).map
    (fun m => (m, l.filter (fun r => r.method_clean == m)))

/-- Response row of the comparison view (main.py:48-59); `mse = rmse²`. -/
structure AccuracyRow where
  product_name : String
  fy : String
  forecast_type : String
  method : String
  bias : Option ℚ
  mse : Option ℚ
  mape : Option ℚ
  wape : Option ℚ
  n : Nat
  is_adopted : Bool
  is_ai : Bool
  deriving DecidableEq

/-- Response point of the trend view (main.py:69-79); `mse = rmse²`. -/
structure TrendPoint where
  fy : String
  forecast_type : String
  method : String
  bias : Option ℚ
  mse : Option ℚ
  mape : Option ℚ
  wape : Option ℚ
  n : Nat
  is_adopted : Bool
  is_ai : Bool
  deriving DecidableEq

/-- `np.inf if np.isnan(x) else x` (main.py:360,401): NaN sorts as +∞. -/
def nanKey : Option ℚ → WithTop ℚ
  | none => ⊤
  | some q => (q : WithTop ℚ)

/-- Sort key of the comparison view (main.py:360):
`(not is_adopted, wape with NaN as ∞, rmse)`.  The third component uses
`mse = rmse²`, which orders identically. -/
def compareKey (r : AccuracyRow) : Bool ×ₗ (WithTop ℚ ×ₗ WithTop ℚ) :=
  toLex (!r.is_adopted, toLex (nanKey r.wape, nanKey r.mse))

/-- Python tuple comparison on `compareKey` (lexicographic). -/
def compareLE (a b : AccuracyRow) : Prop :=
  compareKey a ≤ compareKey b

instance : DecidableRel compareLE :=
  fun a b => inferInstanceAs (Decidable (compareKey a ≤ compareKey b))

instance : IsTotal AccuracyRow compareLE :=
  ⟨fun a b => le_total (compareKey a) (compareKey b)⟩

instance : IsTrans AccuracyRow compareLE :=
  ⟨fun _ _ _ h1 h2 => le_trans h1 h2⟩

/-- Sort key of the trend view (main.py:400-401):
`(fy_order[fy], not is_adopted, wape with NaN as ∞)` — no RMSE component.
Every point's `fy` is in `order`, so `fy_order.get(fy, 999)` is `indexOf`. -/
def trendKey (order : List String) (p : TrendPoint) : Nat ×ₗ (Bool ×ₗ WithTop ℚ) :=
  toLex (order.indexOf p.fy, toLex (!p.is_adopted, nanKey p.wape))

/-- Python tuple comparison on `trendKey` (lexicographic). -/
def trendLE (order : List String) (a b : TrendPoint) : Prop :=
  trendKey order a ≤ trendKey order b

instance (order : List String) : DecidableRel (trendLE order) :=
  fun a b => inferInstanceAs (Decidable (trendKey order a ≤ trendKey order b))

instance (order : List String) : IsTotal TrendPoint (trendLE order) :=
  ⟨fun a b => le_total (trendKey order a) (trendKey order b)⟩

instance (order : List String) : IsTrans TrendPoint (trendLE order) :=
  ⟨fun _ _ _ h1 h2 => le_trans h1 h2⟩

/-- Response of the comparison view (main.py:62-66). -/
structure FyMethodComparisonResponse where
  product_name : String
  fy : String
  forecast_type : String
  rows : List AccuracyRow
  deriving DecidableEq

/-- Response of the trend view (main.py:82-86). -/
structure TrendResponse where
  product_name : String
  years : List String
  forecast_type : String
  points : List TrendPoint
  deriving DecidableEq

/-- Response of the actuals view (main.py:89-92). -/
structure HistoricalData where
  product_name : String
  fy : String
  actuals : List ℚ
  deriving DecidableEq

/-- `TARGET_FYS` (main.py:19). -/
def TARGET_FYS : List String :=
  ["FY23/24", "FY24/25", "FY25/26"]

/-- Embeds `get_product_subset_metrics` (main.py:250-255); an
`HTTPException(404)` is `Except.error`. -/
def get_product_subset_metrics (l : List LongRow) (product : String) :
    Except String (List LongRow) :=
  let p := pyUpper (pyStrip product)
  let sub := (metrics_df l).filter (fun r => r.product_clean == p)
  if sub = [] then
    .error ("No usable (actual+forecast) data for product " ++ product)
  else
    .ok sub

/-- Embeds the `/fys/{product}` route (main.py:307-315): note that an
unknown product yields `.ok []`, not an error. -/
def fys (l : List LongRow) (product : String) : Except String (List String) :=
  let p := pyUpper (pyStrip product)
  let sub := (metrics_df l).filter (fun r => r.product_clean == p)
  if sub = [] then
    .ok []
  else
    .ok (List.insertionSort (fun a b : String => a.data ≤ b.data) (dedupFirst (sub.map fyCol)))

/-- Builds one `AccuracyRow` from a method group (main.py:343-358). -/
def mkAccuracyRow (product fy forecast_type m : String) (g : List LongRow) : AccuracyRow :=
  let mtr := compute_metrics (g.map toObs)
  { product_name := pyUpper (pyStrip product), fy := fy, forecast_type := forecast_type,
    method := m, bias := mtr.bias, mse := mtr.mse, mape := mtr.mape, wape := mtr.wape,
    n := mtr.n, is_adopted := g.any rowIsAdopted, is_ai := g.any rowIsAI }

/-- Embeds `compare_methods_for_fy` (main.py:330-361). -/
def compare_methods_for_fy (l : List LongRow) (product fy forecast_type : String) :
    Except String FyMethodComparisonResponse :=
  match get_product_subset_metrics l product with
  | .error e => .error e
  | .ok sub0 =>
    let sub := sub0.filter (fun r =>
      (fyCol r == fy) && (pyLower r.forecast_type == pyLower (pyStrip forecast_type)))
    if sub = [] then
      .error ("No metric-ready data for " ++ product ++ " in " ++ fy ++
        " (" ++ forecast_type ++ ")")
    else
      let rows := (groupByMethod sub).map
        (fun mg => mkAccuracyRow product fy forecast_type mg.1 mg.2)
      .ok { product_name := pyUpper (pyStrip product), fy := fy,
            forecast_type := forecast_type,
            rows := List.insertionSort compareLE rows }

/-- Builds one `TrendPoint` from a method group (main.py:383-398). -/
def mkTrendPoint (fy forecast_type m : String) (g : List LongRow) : TrendPoint :=
  let mtr := compute_metrics (g.map toObs)
  { fy := fy, forecast_type := forecast_type, method := m, bias := mtr.bias,
    mse := mtr.mse, mape := mtr.mape, wape := mtr.wape, n := mtr.n,
    is_adopted := g.any rowIsAdopted, is_ai := g.any rowIsAI }

/-- Embeds `trend` (main.py:364-408); `years = none` is Python `years=None`,
and `if not years` also catches an explicit empty list. -/
def trend (l : List LongRow) (product forecast_type : String)
    (years : Option (List String)) : Except String TrendResponse :=
  match get_product_subset_metrics l product with
  | .error e => .error e
  | .ok sub0 =>
    let sub := sub0.filter (fun r => pyLower r.forecast_type == pyLower (pyStrip forecast_type))
    let years0 := match years with
      | none => TARGET_FYS
      | some ys => if ys = [] then TARGET_FYS else ys
    let years_existing := years0.filter (fun y => sub.any (fun r => fyCol r == y))
    if years_existing = [] then
      .error ("No data for " ++ product ++ " in requested years (" ++ forecast_type ++ ")")
    else
      let points := years_existing.flatMap (fun fy =>
        (groupByMethod (sub.filter (fun r => fyCol r == fy))).map
          (fun mg => mkTrendPoint fy forecast_type mg.1 mg.2))
      .ok { product_name := pyUpper (pyStrip product), years := years_existing,
            forecast_type := forecast_type,
            points := List.insertionSort (trendLE years_existing) points }

/-- Sort key of `sort_values("date")` (main.py:419): missing dates (never
present there) would sort last, mirroring pandas `na_position="last"`. -/
def dkey (r : LongRow) : WithTop (Nat ×ₗ (Nat ×ₗ Nat)) :=
  match r.date with
  | none => ⊤
  | some d => ((toLex (d.year, toLex (d.month, d.day)) : Nat ×ₗ (Nat ×ₗ Nat)) : WithTop _)

/-- Row comparison used to embed `sort_values("date")`. -/
def actualsLE (a b : LongRow) : Prop :=
  dkey a ≤ dkey b

instance : DecidableRel actualsLE :=
  fun a b => inferInstanceAs (Decidable (dkey a ≤ dkey b))

instance : IsTotal LongRow actualsLE :=
  ⟨fun a b => le_total (dkey a) (dkey b)⟩

instance : IsTrans LongRow actualsLE :=
  ⟨fun _ _ _ h1 h2 => le_trans h1 h2⟩

/-- pandas `drop_duplicates(subset=["date"])`: keep the first row per
date (later rows with an already-seen date are filtered out of the
recursively deduplicated tail). -/
def drop_duplicates_by_date : List LongRow → List LongRow
  | [] => []
  | r :: l => r :: (drop_duplicates_by_date l).filter (fun x => !(x.date == r.date))

/-- Embeds the `/actuals/{product}` route (main.py:411-425). -/
def actuals (l : List LongRow) (product fy : String) : Except String HistoricalData :=
  let p := pyUpper (pyStrip product)
  let sub := (metrics_df l).filter (fun r => (r.product_clean == p) && (fyCol r == fy))
  if sub = [] then
    .error ("No actuals for " ++ product ++ " in " ++ fy)
  else
    let sub2 := drop_duplicates_by_date
      (sub.filter (fun r => r.actual_num.isSome && r.date.isSome))
    let sub3 := List.insertionSort actualsLE sub2
    let actuals_list := sub3.map (fun r => r.actual_num.getD 0)
    if actuals_list = [] then
      .error ("No numeric actuals for " ++ product ++ " in " ++ fy)
    else
      .ok { product_name := p, fy := fy, actuals := actuals_list }

/-- One row of the wide input table (main.py:201).  The five identity
cells are explicit fields; the method-column cells are an association
list from column name to raw cell text. -/
structure WideRow where
  product : String
  Period : String
  actualConsumption : String
  forecastType : String
  Adopted : String
  cells : List (String × String)
  deriving DecidableEq

/-- Cell of a method column in a wide row. -/
def cellVal (r : WideRow) (c : String) : String :=
  ((r.cells.find? (fun kv => kv.1 == c)).map (fun kv => kv.2)).getD ""

/-- The wide table: its (already stripped) column names and its rows. -/
structure WideTable where
  cols : List String
  rows : List WideRow
  deriving DecidableEq

/-- One melted row (main.py:214-219), before any cleaning. -/
structure RawLongRow where
  product : String
  Period : String
  actualConsumption : String
  forecastType : String
  Adopted : String
  method : String
  forecast : String
  deriving DecidableEq

/-- `required` (main.py:204); also the `id_vars` of the melt (main.py:209). -/
def required : List String :=
  ["product", "Period", "Actual Consumption", "Forecast Type", "Adopted"]

/-- Embeds `wide.melt(id_vars, value_vars=method_cols, ...)` (main.py:214):
pandas stacks one block per value column, each block holding every row. -/
def meltRows (method_cols : List String) (rows : List WideRow) : List RawLongRow :=
  method_cols.flatMap (fun c => rows.map (fun r =>
    { product := r.product, Period := r.Period,
      actualConsumption := r.actualConsumption, forecastType := r.forecastType,
      Adopted := r.Adopted, method := c, forecast := cellVal r c }))

/-- Embeds the ingestion-time structure checks and the melt
(main.py:202-219); a `RuntimeError` aborting startup is `Except.error`. -/
def ingest (w : WideTable) : Except String (List RawLongRow) :=
  let cols := w.cols.map (fun c => pyStrip c)
  let missing := required.filter (fun c => !(cols.contains c))
  if missing ≠ [] then
    .error "Missing required columns in CSV"
  else
    let method_cols := cols.filter (fun c => !(required.contains c))
    if method_cols = [] then
      .error "No method columns found. Your CSV might not include forecast method columns."
    else
      .ok (meltRows method_cols w.rows)

/-- The per-row cleaning of main.py:222-235 applied to a melted row.
`parseDate` stands for `parse_period_to_date` and `parseNum` for `to_num`;
both parsers are upstream of every claim and are kept abstract. -/
def cleanRow (parseDate : String → Option PDate) (parseNum : String → Option ℚ)
    (r : RawLongRow) : LongRow :=
  { product_clean := pyUpper (pyStrip r.product), method_clean := pyStrip r.method,
    adopted_method := pyStrip r.Adopted,
    forecast_type := normalize_forecast_type r.forecastType,
    date := parseDate r.Period, actual_num := parseNum r.actualConsumption,
    forecast_num := parseNum r.forecast }

/-- Modelled from the spec: the adopted-method resolver of the legacy
single-method summary view is not part of `src/api/main.py` (only the
per-observation `is_adopted` tagging is).  Per §4.6 of the spec it picks
the statistical mode of the adopted-method label column, ties broken by
the first-encountered value in the underlying row order.  The fold keeps
the current best and replaces it only on a strictly larger count. -/
def pickBest (labels : List String) (best : Option String) (a : String) : Option String :=
  match best with
  | none => some a
  | some b => if labels.count b < labels.count a then some a else some b

/-- Modelled from the spec, continuing `pickBest`: fold the labels keeping
the current best; a later value displaces it only on a strictly larger
count, so ties go to the first-encountered value. -/
def resolveAdopted (labels : List String) : Option String :=
  labels.foldl (pickBest labels) none

/-- Modelled from the spec, continuing `resolveAdopted`: the labels a
(product, FY) pair contributes are the adopted-method labels of its
usable (actual+forecast) rows, in underlying row order. -/
def adoptedLabels (l : List LongRow) (product fy : String) : List String :=
  ((metrics_df l).filter
    (fun r => (r.product_clean == pyUpper (pyStrip product)) && (fyCol r == fy))).map
    (fun r => r.adopted_method)

/-- Modelled from the spec, continuing `resolveAdopted`: the resolver
applied to a (product, FY) pair's usable rows. -/
def adoptedFor (l : List LongRow) (product fy : String) : Option String :=
  resolveAdopted (adoptedLabels l product fy)

/-- Rows of a comparison response; an error response has no rows. -/
def respRows : Except String FyMethodComparisonResponse → List AccuracyRow
  | .error _ => []
  | .ok resp => resp.rows

/-- Points of a trend response; an error response has no points. -/
def respPoints : Except String TrendResponse → List TrendPoint
  | .error _ => []
  | .ok resp => resp.points

/-- Years of a trend response; an error response has no years. -/
def respYears : Except String TrendResponse → List String
  | .error _ => []
  | .ok resp => resp.years

/-- Strict comparison of wape/rmse values with NaN as +∞. -/
def optLTb : Option ℚ → Option ℚ → Bool
  | none, _ => false
  | some _, none => true
  | some a, some b => decide (a < b)

/-- The ordering the frozen claim asserts for trend points:
`(not is_adopted, wape with NaN last, rmse ascending)`, with `mse = rmse²`
standing in for rmse (same order). -/
def claimTrendLEb (a b : TrendPoint) : Bool :=
  if a.is_adopted = b.is_adopted then
    if optLTb a.wape b.wape then true
    else if optLTb b.wape a.wape then false
    else !(optLTb b.mse a.mse)
  else a.is_adopted

/-- Bool-valued sortedness along consecutive pairs. -/
def sortedByB (le : α → α → Bool) : List α → Bool
  | [] => true
  | [_] => true
  | a :: b :: l => le a b && sortedByB le (b :: l)

/-- Does an `Except` hold an error? -/
def isError : Except String α → Bool
  | .error _ => true
  | .ok _ => false

deriving instance DecidableEq for Except

/-- A small concrete table used to witness and refute claims: one
product "P" over FY23/24 with two methods.  Method "C" has errors 0 and
6 (squared-error mean 18), method "D" has errors 3 and 3 (squared-error
mean 9); both share WAPE 30 and neither matches the adopted label. -/
def mkCexRow (m : String) (md : Nat) (f : ℚ) : LongRow :=
  { product_clean := "P", method_clean := m, adopted_method := "Z",
    forecast_type := "Main", date := some { year := 2023, month := md, day := 1 },
    actual_num := some 10, forecast_num := some f }

/-- The concrete table built from `mkCexRow`. -/
def cexLong : List LongRow :=
  [mkCexRow "C" 7 10, mkCexRow "C" 8 16, mkCexRow "D" 7 13, mkCexRow "D" 8 13]

/-- Concrete table whose adopted-label column reads [A, A, B]. -/
def adoptTable : List LongRow :=
  [{ product_clean := "P", method_clean := "M", adopted_method := "A",
     forecast_type := "Main", date := some { year := 2023, month := 7, day := 1 },
     actual_num := some 5, forecast_num := some 6 },
   { product_clean := "P", method_clean := "M", adopted_method := "A",
     forecast_type := "Main", date := some { year := 2023, month := 8, day := 1 },
     actual_num := some 5, forecast_num := some 6 },
   { product_clean := "P", method_clean := "M", adopted_method := "B",
     forecast_type := "Main", date := some { year := 2023, month := 9, day := 1 },
     actual_num := some 5, forecast_num := some 6 }]

/-- Concrete wide row with a single method column "M1". -/
def wRow : WideRow :=
  { product := "p1", Period := "2023-07", actualConsumption := "10",
    forecastType := "Main", Adopted := "M1", cells := [("M1", "7")] }

/-- The worked example of spec §8: actual [100, 200], forecast [110, 180]. -/
def specExample : List Obs :=
  [{ actual := 100, forecast := 110 }, { actual := 200, forecast := 180 }]

/-! ### Supporting lemmas -/

set_option maxHeartbeats 4000000 in
set_option maxRecDepth 10000 in
theorem lastTwo_all :
    (List.range' 1676 588).all (fun y => lastTwo y == pad2 (y % 100)) = true := by
  decide

theorem lastTwo_eq_pad2 {y : Nat} (h1 : 1676 ≤ y) (h2 : y ≤ 2263) :
    lastTwo y = pad2 (y % 100) := by
  have hmem : y ∈ List.range' 1676 588 := by
    rw [List.mem_range'_1]
    exact ⟨h1, by omega⟩
  have := List.all_eq_true.mp lastTwo_all y hmem
  exact eq_of_beq this

theorem qmean_eq_none {l : List ℚ} : qmean l = none ↔ l = [] := by
  unfold qmean
  split <;> simp_all

theorem qmean_of_ne_nil {l : List ℚ} (h : l ≠ []) :
    qmean l = some (l.sum / l.length) := by
  unfold qmean
  rw [if_neg h]

/-! ### C3 — `compute_metrics` on an empty slice -/

/-- C3: `compute_metrics` applied to an empty slice returns `n = 0` and
not-a-number (`none`) for bias, rmse (represented by `mse`), mape and
wape, as an ordinary value of the total function — no error, no raise. -/
theorem compute_metrics_empty :
    compute_metrics [] =
      { bias := none, mse := none, mape := none, wape := none, n := 0 } := by
  decide

/-! ### C9 — `is_ai_method` -/

/-- C9: `is_ai_method` is true exactly when the trimmed, lowercased name
contains "ai" or contains "lm" (the "lmis" test is subsumed by "lm"), and
in particular "Holmes" is flagged as an AI method. -/
theorem is_ai_method_spec :
    (∀ m : String, is_ai_method m = true ↔
      ("ai".toList <:+: (pyLower (pyStrip m)).toList ∨
        "lm".toList <:+: (pyLower (pyStrip m)).toList))
  ∧ is_ai_method "Holmes" = true := by
  constructor
  · intro m
    simp only [is_ai_method, Bool.or_eq_true, decide_eq_true_eq]
    constructor
    · rintro ((h | h) | h)
      · exact Or.inl h
      · refine Or.inr (List.IsInfix.trans ?_ h)
        decide
      · exact Or.inr h
    · rintro (h | h)
      · exact Or.inl (Or.inl h)
      · exact Or.inr h
  · decide

/-! ### C7 — shape of the melt -/

/-- C7: the reshaper yields exactly `raw_rows × method_column_count` long
rows, and for every (row, method column) pair the output contains the row
carrying that column's name as `method` and its cell value as `forecast`. -/
theorem meltRows_spec (method_cols : List String) (rows : List WideRow) :
    (meltRows method_cols rows).length = rows.length * method_cols.length
  ∧ ∀ c ∈ method_cols, ∀ r ∈ rows,
      ({ product := r.product, Period := r.Period,
         actualConsumption := r.actualConsumption, forecastType := r.forecastType,
         Adopted := r.Adopted, method := c, forecast := cellVal r c } : RawLongRow)
        ∈ meltRows method_cols rows := by
  constructor
  · induction method_cols with
    | nil => simp [meltRows]
    | cons c cs ih =>
      simp only [meltRows, List.flatMap_cons, List.length_append, List.length_map,
        List.length_cons] at ih ⊢
      rw [ih]
      ring
  · intro c hc r hr
    unfold meltRows
    rw [List.mem_flatMap]
    exact ⟨c, hc, List.mem_map_of_mem _ hr⟩

/-- Witness for C7 at a one-row, one-method-column table. -/
theorem meltRows_spec_witness :
    "M1" ∈ ["M1"] ∧ wRow ∈ [wRow] ∧
    ({ product := "p1", Period := "2023-07", actualConsumption := "10",
       forecastType := "Main", Adopted := "M1", method := "M1",
       forecast := cellVal wRow "M1" } : RawLongRow) ∈ meltRows ["M1"] [wRow] :=
  ⟨by decide, by decide,
    (meltRows_spec ["M1"] [wRow]).2 "M1" (by decide) wRow (by decide)⟩

/-! ### C2 — the fiscal-year classifier -/

/-- C2: for a present date the classifier is the stated pure function —
month ≥ 7 starts the financial year in the date's own calendar year,
otherwise in the previous one, and the label is `FY{yy}/{yy+1}` from the
two-digit start and end years; a missing date yields the blank label.
The year bounds are those of `pandas.Timestamp` (1677..2262). -/
theorem fy_from_date_spec (d : PDate) (h1 : 1677 ≤ d.year) (h2 : d.year ≤ 2262) :
    (7 ≤ d.month →
      fy_from_date (some d) =
        "FY" ++ pad2 (d.year % 100) ++ "/" ++ pad2 ((d.year + 1) % 100))
  ∧ (d.month < 7 →
      fy_from_date (some d) =
        "FY" ++ pad2 ((d.year - 1) % 100) ++ "/" ++ pad2 (d.year % 100))
  ∧ fy_from_date none = "" := by
  refine ⟨?_, ?_, rfl⟩
  · intro hm
    rw [fy_from_date, if_pos hm,
      lastTwo_eq_pad2 (by omega) (by omega), lastTwo_eq_pad2 (by omega) (by omega)]
  · intro hm
    rw [fy_from_date, if_neg (by omega),
      lastTwo_eq_pad2 (by omega) (by omega), lastTwo_eq_pad2 (by omega) (by omega)]

/-- Witness for C2 at July 2023, the spec's own example: FY23/24. -/
theorem fy_from_date_spec_witness :
    7 ≤ (⟨2023, 7, 1⟩ : PDate).month ∧
    fy_from_date (some ⟨2023, 7, 1⟩) = "FY23/24" :=
  ⟨by decide,
    ((fy_from_date_spec ⟨2023, 7, 1⟩ (by decide) (by decide)).1 (by decide)).trans
      (by decide)⟩

/-! ### C8 — fatal ingestion checks -/

/-- C8: ingestion errors out exactly when a required identity column is
missing from the (stripped) header or no method column remains, and the
outcome depends only on the header — not on any row, so the failure is
raised once at ingestion time. -/
theorem ingest_spec (w : WideTable) :
    (isError (ingest w) = true ↔
      ((∃ c ∈ required, c ∉ w.cols.map (fun c => pyStrip c)) ∨
        (w.cols.map (fun c => pyStrip c)).filter
          (fun c => !(required.contains c)) = []))
  ∧ (∀ rows2 : List WideRow,
      isError (ingest { cols := w.cols, rows := rows2 }) = isError (ingest w)) := by
  have hmain : ∀ rows2 : List WideRow,
      isError (ingest { cols := w.cols, rows := rows2 }) = true ↔
      ((∃ c ∈ required, c ∉ w.cols.map (fun c => pyStrip c)) ∨
        (w.cols.map (fun c => pyStrip c)).filter
          (fun c => !(required.contains c)) = []) := by
    intro rows2
    simp only [ingest]
    split
    · next hmiss =>
      simp only [isError, true_iff]
      left
      rw [ne_eq, List.filter_eq_nil_iff] at hmiss
      push_neg at hmiss
      obtain ⟨c, hc, hcc⟩ := hmiss
      exact ⟨c, hc, by simpa using hcc⟩
    · next hmiss =>
      rw [ne_eq, not_not, List.filter_eq_nil_iff] at hmiss
      split
      · next hz =>
        simp only [isError, true_iff]
        exact Or.inr hz
      · next hz =>
        simp only [isError, Bool.false_eq_true, false_iff]
        rintro (⟨c, hc, hcc⟩ | h)
        · exact hcc (by simpa using hmiss c hc)
        · exact hz h
  constructor
  · have := hmain w.rows
    exact this
  · intro rows2
    rw [Bool.eq_iff_iff, hmain rows2, ← hmain w.rows]

/-! ### C1 — MAPE / WAPE semantics of `compute_metrics` -/

theorem filterMap_mape_terms (sub : List Obs) :
    sub.filterMap (fun o =>
      if o.actual = 0 then none else some (|o.forecast - o.actual| / o.actual))
    = (sub.filter (fun o => !decide (o.actual = 0))).map
        (fun o => |o.forecast - o.actual| / o.actual) := by
  induction sub with
  | nil => rfl
  | cons a l ih =>
    by_cases h : a.actual = 0 <;> simp [h, ih]

/-- C1: MAPE is the mean of `|forecast − actual| / actual × 100` over
exactly the rows whose actual is nonzero — rows with a zero actual are
filtered out, never divided by — and it is NaN (`none`) precisely when no
row has a nonzero actual; WAPE is `Σ|forecast − actual| / Σ|actual| × 100`
and is NaN precisely when `Σ|actual|` is zero. -/
theorem compute_metrics_mape_wape (sub : List Obs) :
    ((compute_metrics sub).mape = none ↔ ∀ o ∈ sub, o.actual = 0)
  ∧ (sub.filter (fun o => !decide (o.actual = 0)) ≠ [] →
      (compute_metrics sub).mape =
        some (((sub.filter (fun o => !decide (o.actual = 0))).map
            (fun o => |o.forecast - o.actual| / o.actual)).sum /
          (sub.filter (fun o => !decide (o.actual = 0))).length * 100))
  ∧ ((compute_metrics sub).wape = none ↔ (sub.map (fun o => |o.actual|)).sum = 0)
  ∧ ((sub.map (fun o => |o.actual|)).sum ≠ 0 →
      (compute_metrics sub).wape =
        some ((sub.map (fun o => |o.forecast - o.actual|)).sum /
          (sub.map (fun o => |o.actual|)).sum * 100)) := by
  refine ⟨?_, ?_, ?_, ?_⟩
  · simp only [compute_metrics, filterMap_mape_terms, Option.map_eq_none', qmean_eq_none,
      List.map_eq_nil_iff, List.filter_eq_nil_iff, Bool.not_eq_true', decide_eq_false_iff_not,
      not_not]
  · intro h
    simp only [compute_metrics, filterMap_mape_terms]
    rw [qmean_of_ne_nil (by simpa [List.map_eq_nil_iff] using h)]
    simp [List.length_map, mul_comm]
  · simp only [compute_metrics]
    split
    · next h => simp [h]
    · next h =>
      rw [not_not] at h
      simp [h]
  · intro h
    simp only [compute_metrics]
    rw [if_pos h]
    simp only [List.map_map]
    rfl
/-- Witness for C1 at the worked example of spec §8:
actual [100, 200], forecast [110, 180], MAPE = WAPE = 10. -/
theorem compute_metrics_mape_wape_witness :
    specExample.filter (fun o => !decide (o.actual = 0)) ≠ []
  ∧ (compute_metrics specExample).mape = some 10
  ∧ (specExample.map (fun o => |o.actual|)).sum ≠ 0
  ∧ (compute_metrics specExample).wape = some 10 := by
  have h := compute_metrics_mape_wape specExample
  refine ⟨by decide, (h.2.1 (by decide)).trans (by decide), by decide,
    (h.2.2.2 (by decide)).trans (by decide)⟩

/-! ### C4 — sorting contract of the comparison and trend views -/

/-- Counterexample to C4 as frozen: in the trend view the two points of
`cexLong` tie on (adopted, WAPE) but keep squared-RMSE order 18 before 9
— the trend sort key (main.py:401) has no RMSE component, so the points
are not sorted by the claimed (adopted, WAPE, RMSE) order. -/
theorem trend_rmse_tiebreak_cex :
    sortedByB claimTrendLEb (respPoints (trend cexLong "P" "Main" (some ["FY23/24"]))) =
      false := by
  decide

/-- C4 as amended: the comparison view's rows are sorted by
`(adopted first, WAPE ascending with NaN last, RMSE ascending)`, while
the trend view's points are sorted by
`(requested-year order, adopted first, WAPE ascending with NaN last)` —
without an RMSE tiebreak. -/
theorem views_sorted (l : List LongRow) (product fy forecast_type : String)
    (years : Option (List String)) :
    List.Sorted compareLE (respRows (compare_methods_for_fy l product fy forecast_type))
  ∧ List.Sorted (trendLE (respYears (trend l product forecast_type years)))
      (respPoints (trend l product forecast_type years)) := by
  constructor
  · unfold compare_methods_for_fy
    cases hg : get_product_subset_metrics l product with
    | error e => simp [respRows]
    | ok sub0 =>
      simp only
      split
      · simp [respRows]
      · simpa [respRows] using
          List.sorted_insertionSort compareLE
            ((groupByMethod (sub0.filter (fun r => (fyCol r == fy) &&
              (pyLower r.forecast_type == pyLower (pyStrip forecast_type))))).map
              (fun mg => mkAccuracyRow product fy forecast_type mg.1 mg.2))
  · unfold trend
    cases hg : get_product_subset_metrics l product with
    | error e => simp [respYears, respPoints]
    | ok sub0 =>
      simp only
      split
      · simp [respYears, respPoints]
      · simp only [respYears, respPoints]
        exact List.sorted_insertionSort _ _

/-! ### C6 — not-found outcomes -/

/-- Counterexample to C6 as frozen: product "B" is never seen in
`cexLong`, yet the FY-list operation answers with a successful empty
list rather than a distinct not-found outcome. -/
theorem fys_silent_empty_cex :
    fys cexLong "B" = .ok [] := by
  decide

/-- C6 as amended: for a product with no usable rows, the comparison,
trend and actuals operations (and the product-subset selector they share)
yield a distinct error with a descriptive reason, and the comparison view
errors likewise when the product exists but the FY/forecast-type slice is
empty — but the FY-list operation instead returns a successful empty
list. -/
theorem notfound_spec (l : List LongRow) (product fy forecast_type : String)
    (years : Option (List String)) :
    ((metrics_df l).filter (fun r => r.product_clean == pyUpper (pyStrip product)) = [] →
        get_product_subset_metrics l product =
          .error ("No usable (actual+forecast) data for product " ++ product)
      ∧ compare_methods_for_fy l product fy forecast_type =
          .error ("No usable (actual+forecast) data for product " ++ product)
      ∧ trend l product forecast_type years =
          .error ("No usable (actual+forecast) data for product " ++ product)
      ∧ actuals l product fy =
          .error ("No actuals for " ++ product ++ " in " ++ fy)
      ∧ fys l product = .ok [])
  ∧ ((metrics_df l).filter (fun r => r.product_clean == pyUpper (pyStrip product)) ≠ [] →
      ((metrics_df l).filter (fun r => r.product_clean == pyUpper (pyStrip product))).filter
          (fun r => (fyCol r == fy) &&
            (pyLower r.forecast_type == pyLower (pyStrip forecast_type))) = [] →
      compare_methods_for_fy l product fy forecast_type =
        .error ("No metric-ready data for " ++ product ++ " in " ++ fy ++
          " (" ++ forecast_type ++ ")")) := by
  constructor
  · intro h
    have hgps : get_product_subset_metrics l product =
        .error ("No usable (actual+forecast) data for product " ++ product) := by
      simp only [get_product_subset_metrics]
      rw [if_pos h]
    refine ⟨hgps, ?_, ?_, ?_, ?_⟩
    · unfold compare_methods_for_fy
      rw [hgps]
    · unfold trend
      rw [hgps]
    · have h2 : (metrics_df l).filter (fun r =>
          (r.product_clean == pyUpper (pyStrip product)) && (fyCol r == fy)) = [] := by
        rw [List.filter_eq_nil_iff] at h ⊢
        intro a ha
        have := h a ha
        simp_all
      simp only [actuals]
      rw [if_pos h2]
    · simp only [fys]
      rw [if_pos h]
  · intro h hf
    have hgps : get_product_subset_metrics l product =
        .ok ((metrics_df l).filter
          (fun r => r.product_clean == pyUpper (pyStrip product))) := by
      simp only [get_product_subset_metrics]
      rw [if_neg h]
    unfold compare_methods_for_fy
    rw [hgps]
    simp only
    rw [if_pos hf]

/-- Witness for C6 at concrete inputs: an unknown product "B" and a
known product "P" queried for an absent year. -/
theorem notfound_spec_witness :
    get_product_subset_metrics cexLong "B" =
      .error ("No usable (actual+forecast) data for product " ++ "B")
  ∧ actuals cexLong "B" "FY23/24" =
      .error ("No actuals for " ++ "B" ++ " in " ++ "FY23/24")
  ∧ compare_methods_for_fy cexLong "P" "FY99/00" "Main" =
      .error ("No metric-ready data for " ++ "P" ++ " in " ++ "FY99/00" ++
        " (" ++ "Main" ++ ")") := by
  have h1 := (notfound_spec cexLong "B" "FY23/24" "Main" none).1 (by decide)
  have h2 := (notfound_spec cexLong "P" "FY99/00" "Main" none).2 (by decide) (by decide)
  exact ⟨h1.1, h1.2.2.2.1, h2⟩

/-! ### C5 — adopted-method resolution -/

theorem indexOf_append_left {α : Type} [BEq α] [LawfulBEq α] {b : α} {p t : List α}
    (h : b ∈ p) : (p ++ t).indexOf b = p.indexOf b := by
  induction p with
  | nil => cases h
  | cons x p ih =>
    rw [List.cons_append, List.indexOf_cons, List.indexOf_cons]
    cases hx : x == b with
    | true => rfl
    | false =>
      have : b ∈ p := by
        rcases List.mem_cons.mp h with h | h
        · exfalso
          have hne : x ≠ b := by simpa using hx
          exact hne h.symm
        · exact h
      simp only [cond_false]
      rw [ih this]

theorem indexOf_append_right {α : Type} [BEq α] [LawfulBEq α] {a : α} {p t : List α}
    (h : a ∉ p) : (p ++ t).indexOf a = p.length + t.indexOf a := by
  induction p with
  | nil => simp
  | cons x p ih =>
    have hx : (x == a) = false := by
      simp only [beq_eq_false_iff_ne, ne_eq]
      intro he
      exact h (he ▸ List.mem_cons_self x p)
    rw [List.cons_append, List.indexOf_cons, hx]
    have : a ∉ p := fun hm => h (List.mem_cons_of_mem _ hm)
    simp only [cond_false]
    rw [ih this]
    simp only [List.length_cons]
    omega

theorem foldl_pickBest_inv (L : List String) :
    ∀ (s p : List String) (b : String), L = p ++ s → b ∈ p →
    (∀ x ∈ p, L.count x ≤ L.count b) →
    (∀ x ∈ p, L.count x = L.count b → L.indexOf b ≤ L.indexOf x) →
    ∃ r, s.foldl (pickBest L) (some b) = some r ∧ r ∈ L ∧
      (∀ x ∈ L, L.count x ≤ L.count r) ∧
      (∀ x ∈ L, L.count x = L.count r → L.indexOf r ≤ L.indexOf x) := by
  intro s
  induction s with
  | nil =>
    intro p b hL hb hc ht
    rw [List.append_nil] at hL
    subst hL
    exact ⟨b, rfl, hb, hc, ht⟩
  | cons a s ih =>
    intro p b hL hb hc ht
    rw [List.foldl_cons]
    show ∃ r, s.foldl (pickBest L) (pickBest L (some b) a) = some r ∧ _
    by_cases h : L.count b < L.count a
    · rw [show pickBest L (some b) a = some a by simp [pickBest, h]]
      apply ih (p ++ [a]) a
      · rw [hL, List.append_assoc]
        rfl
      · exact List.mem_append_right _ (List.mem_singleton_self a)
      · intro x hx
        rcases List.mem_append.mp hx with hx | hx
        · exact le_trans (hc x hx) (Nat.le_of_lt h)
        · rw [List.mem_singleton.mp hx]
      · intro x hx hcx
        rcases List.mem_append.mp hx with hx | hx
        · have := hc x hx
          omega
        · rw [List.mem_singleton.mp hx]
    · rw [show pickBest L (some b) a = some b by simp [pickBest, h]]
      apply ih (p ++ [a]) b
      · rw [hL, List.append_assoc]
        rfl
      · exact List.mem_append_left _ hb
      · intro x hx
        rcases List.mem_append.mp hx with hx | hx
        · exact hc x hx
        · rw [List.mem_singleton.mp hx]
          exact Nat.le_of_not_lt h
      · intro x hx hcx
        rcases List.mem_append.mp hx with hx | hx
        · exact ht x hx hcx
        · rw [List.mem_singleton.mp hx] at hcx ⊢
          by_cases ha : a ∈ p
          · exact ht a ha hcx
          · have h1 : L.indexOf b < p.length := by
              rw [hL, indexOf_append_left hb]
              exact List.indexOf_lt_length.mpr hb
            have h2 : p.length ≤ L.indexOf a := by
              rw [hL, indexOf_append_right ha]
              omega
            omega

/-- C5 (modelled from the spec, see `resolveAdopted`): for every
(product, FY) pair the resolved adopted method is a most frequent value
of the pair's adopted-label column over its usable rows, with ties broken
by the first-encountered value (smallest first-occurrence index); in
particular labels [A, A, B] resolve to A. -/
theorem adoptedFor_spec (l : List LongRow) (product fy : String) :
    (∀ r, adoptedFor l product fy = some r →
      r ∈ adoptedLabels l product fy
      ∧ (∀ x ∈ adoptedLabels l product fy,
          (adoptedLabels l product fy).count x ≤ (adoptedLabels l product fy).count r)
      ∧ (∀ x ∈ adoptedLabels l product fy,
          (adoptedLabels l product fy).count x = (adoptedLabels l product fy).count r →
          (adoptedLabels l product fy).indexOf r ≤ (adoptedLabels l product fy).indexOf x))
  ∧ resolveAdopted ["A", "A", "B"] = some "A" := by
  constructor
  · intro r hr
    unfold adoptedFor resolveAdopted at hr
    cases hlab : adoptedLabels l product fy with
    | nil =>
      rw [hlab] at hr
      cases hr
    | cons a t =>
      rw [hlab, List.foldl_cons] at hr
      rw [show pickBest (a :: t) none a = some a from rfl] at hr
      obtain ⟨r2, hfold, hmem, hcnt, hidx⟩ :=
        foldl_pickBest_inv (a :: t) t [a] a rfl (List.mem_singleton_self a)
          (by intro x hx; rw [List.mem_singleton.mp hx])
          (by intro x hx _; rw [List.mem_singleton.mp hx])
      rw [hfold] at hr
      cases hr
      exact ⟨hmem, hcnt, hidx⟩
  · decide

/-- Witness for C5 at a table whose adopted-label column is [A, A, B]. -/
theorem adoptedFor_spec_witness :
    adoptedFor adoptTable "P" "FY23/24" = some "A"
  ∧ "A" ∈ adoptedLabels adoptTable "P" "FY23/24"
  ∧ (adoptedLabels adoptTable "P" "FY23/24").count "B" ≤
      (adoptedLabels adoptTable "P" "FY23/24").count "A" := by
  have h := (adoptedFor_spec adoptTable "P" "FY23/24").1 "A" (by decide)
  exact ⟨by decide, h.1, h.2.1 "B" (by decide)⟩

/-! ### C10 — the actuals series -/

theorem mem_metrics_df {l : List LongRow} {r : LongRow} (h : r ∈ metrics_df l) :
    r.actual_num.isSome = true ∧ r.forecast_num.isSome = true ∧ r.date.isSome = true := by
  unfold metrics_df long_for_lists at h
  have h1 := List.mem_filter.mp h
  have h2 := List.mem_filter.mp h1.1
  have hb := h1.2
  rw [Bool.and_eq_true] at hb
  refine ⟨hb.1, h2.2, ?_⟩
  cases hd : r.date with
  | some d => rfl
  | none =>
    exfalso
    have hfy : fyCol r = "" := by
      unfold fyCol
      rw [hd]
      rfl
    have := hb.2
    rw [hfy] at this
    exact absurd this (by decide)

theorem ddbd_mem {r : LongRow} : ∀ {s : List LongRow},
    r ∈ drop_duplicates_by_date s → r ∈ s := by
  intro s
  induction s with
  | nil => simp [drop_duplicates_by_date]
  | cons a t ih =>
    intro h
    rw [drop_duplicates_by_date] at h
    rcases List.mem_cons.mp h with h | h
    · exact h ▸ List.mem_cons_self a t
    · exact List.mem_cons_of_mem _ (ih (List.mem_filter.mp h).1)

theorem ddbd_cover : ∀ (s : List LongRow), ∀ r ∈ s,
    ∃ r2 ∈ drop_duplicates_by_date s, r2.date = r.date := by
  intro s
  induction s with
  | nil => simp
  | cons a t ih =>
    intro r hr
    rcases List.mem_cons.mp hr with h | h
    · exact ⟨a, List.mem_cons_self a _, by rw [h]⟩
    · obtain ⟨r2, hr2, hdate⟩ := ih r h
      by_cases hd : r2.date = a.date
      · refine ⟨a, List.mem_cons_self a _, ?_⟩
        rw [← hd]
        exact hdate
      · refine ⟨r2, ?_, hdate⟩
        rw [drop_duplicates_by_date]
        exact List.mem_cons_of_mem _ (List.mem_filter.mpr ⟨hr2, by simp [hd]⟩)

theorem ddbd_pairwise (s : List LongRow) :
    List.Pairwise (fun a b : LongRow => a.date ≠ b.date) (drop_duplicates_by_date s) := by
  induction s with
  | nil => simp [drop_duplicates_by_date]
  | cons a t ih =>
    rw [drop_duplicates_by_date]
    refine List.Pairwise.cons ?_ (List.Pairwise.filter _ ih)
    intro b hb
    have hpred := (List.mem_filter.mp hb).2
    simp only [Bool.not_eq_eq_eq_not, Bool.not_true, beq_eq_false_iff_ne, ne_eq] at hpred
    exact fun he => hpred he.symm

theorem dkey_inj {a b : LongRow} (h : dkey a = dkey b) : a.date = b.date := by
  cases ha : a.date with
  | none =>
    cases hb : b.date with
    | none => rfl
    | some d =>
      simp only [dkey, ha, hb] at h
      exact absurd h.symm WithTop.coe_ne_top
  | some d =>
    cases hb : b.date with
    | none =>
      simp only [dkey, ha, hb] at h
      exact absurd h WithTop.coe_ne_top
    | some d2 =>
      simp only [dkey, ha, hb, WithTop.coe_inj] at h
      rw [toLex_inj] at h
      obtain ⟨h1, h2⟩ := Prod.ext_iff.mp h
      rw [toLex_inj] at h2
      obtain ⟨h3, h4⟩ := Prod.ext_iff.mp h2
      cases d
      cases d2
      simp_all

/-- C10: for a (product, FY) slice of the metrics table with at least one
row (such rows always carry a numeric actual and a parsed date), the
actuals operation answers with the rows' actual values reduced to one
row per distinct period date and ordered by strictly ascending date; an
empty slice yields the distinct not-found outcome. -/
theorem actuals_spec (l : List LongRow) (product fy : String) :
    ((metrics_df l).filter (fun r =>
        (r.product_clean == pyUpper (pyStrip product)) && (fyCol r == fy)) = [] →
      actuals l product fy = .error ("No actuals for " ++ product ++ " in " ++ fy))
  ∧ ((metrics_df l).filter (fun r =>
        (r.product_clean == pyUpper (pyStrip product)) && (fyCol r == fy)) ≠ [] →
      ∃ out : List LongRow,
        actuals l product fy =
          .ok { product_name := pyUpper (pyStrip product), fy := fy,
                actuals := out.map (fun r => r.actual_num.getD 0) }
        ∧ (∀ r ∈ out, r ∈ (metrics_df l).filter (fun r =>
            (r.product_clean == pyUpper (pyStrip product)) && (fyCol r == fy)))
        ∧ (∀ r ∈ (metrics_df l).filter (fun r =>
            (r.product_clean == pyUpper (pyStrip product)) && (fyCol r == fy)),
            ∃ r2 ∈ out, r2.date = r.date)
        ∧ List.Sorted (fun a b : LongRow => dkey a < dkey b) out) := by
  constructor
  · intro hsub
    simp only [actuals]
    rw [if_pos hsub]
  · intro hsub
    have hfe : ((metrics_df l).filter (fun r =>
        (r.product_clean == pyUpper (pyStrip product)) && (fyCol r == fy))).filter
          (fun r => r.actual_num.isSome && r.date.isSome) =
        (metrics_df l).filter (fun r =>
          (r.product_clean == pyUpper (pyStrip product)) && (fyCol r == fy)) := by
      rw [List.filter_eq_self]
      intro r hr
      have hm := mem_metrics_df (List.mem_filter.mp hr).1
      rw [Bool.and_eq_true]
      exact ⟨hm.1, hm.2.2⟩
    refine ⟨List.insertionSort actualsLE (drop_duplicates_by_date
      ((metrics_df l).filter (fun r =>
        (r.product_clean == pyUpper (pyStrip product)) && (fyCol r == fy)))), ?_, ?_, ?_, ?_⟩
    · simp only [actuals]
      rw [if_neg hsub, hfe]
      have hddne : drop_duplicates_by_date ((metrics_df l).filter (fun r =>
          (r.product_clean == pyUpper (pyStrip product)) && (fyCol r == fy))) ≠ [] := by
        cases hc : (metrics_df l).filter (fun r =>
            (r.product_clean == pyUpper (pyStrip product)) && (fyCol r == fy)) with
        | nil => exact absurd hc hsub
        | cons a t =>
          rw [drop_duplicates_by_date]
          exact List.cons_ne_nil _ _
      have houtne : List.insertionSort actualsLE (drop_duplicates_by_date
          ((metrics_df l).filter (fun r =>
            (r.product_clean == pyUpper (pyStrip product)) && (fyCol r == fy)))) ≠ [] := by
        intro he
        have hperm := List.perm_insertionSort actualsLE (drop_duplicates_by_date
          ((metrics_df l).filter (fun r =>
            (r.product_clean == pyUpper (pyStrip product)) && (fyCol r == fy))))
        rw [he] at hperm
        exact hddne hperm.symm.eq_nil
      rw [if_neg (by simpa [List.map_eq_nil_iff] using houtne)]
    · intro r hr
      have hperm := List.perm_insertionSort actualsLE (drop_duplicates_by_date
        ((metrics_df l).filter (fun r =>
          (r.product_clean == pyUpper (pyStrip product)) && (fyCol r == fy))))
      exact ddbd_mem (hperm.mem_iff.mp hr)
    · intro r hr
      obtain ⟨r2, hr2, hdate⟩ := ddbd_cover _ r hr
      have hperm := List.perm_insertionSort actualsLE (drop_duplicates_by_date
        ((metrics_df l).filter (fun r =>
          (r.product_clean == pyUpper (pyStrip product)) && (fyCol r == fy))))
      exact ⟨r2, hperm.mem_iff.mpr hr2, hdate⟩
    · have hsorted := List.sorted_insertionSort actualsLE (drop_duplicates_by_date
        ((metrics_df l).filter (fun r =>
          (r.product_clean == pyUpper (pyStrip product)) && (fyCol r == fy))))
      have hperm := List.perm_insertionSort actualsLE (drop_duplicates_by_date
        ((metrics_df l).filter (fun r =>
          (r.product_clean == pyUpper (pyStrip product)) && (fyCol r == fy))))
      have hpw := (hperm.pairwise_iff (fun h => Ne.symm h)).mpr (ddbd_pairwise _)
      exact (hsorted.and hpw).imp
        (fun hab => lt_of_le_of_ne hab.1 (fun he => hab.2 (dkey_inj he)))

/-- Witness for C10 at `cexLong`: the slice has four rows over two
distinct dates, and the operation answers with one actual per date. -/
theorem actuals_spec_witness :
    ((metrics_df cexLong).filter (fun r =>
        (r.product_clean == pyUpper (pyStrip "P")) && (fyCol r == "FY23/24"))) ≠ []
  ∧ isError (actuals cexLong "P" "FY23/24") = false := by
  obtain ⟨out, hok, -, -, -⟩ := (actuals_spec cexLong "P" "FY23/24").2 (by decide)
  refine ⟨by decide, ?_⟩
  rw [hok]
  rfl
